import Mathlib

/-!
# Verification of the Unity batch-mode test summarizer

Shallow embedding of the report-summarization pipeline of `runUnityTests`
(the core of the repository): given the outcome of a completed editor run
(exit code, captured stdout/stderr, and the best-effort reads of the
results document and the log document), the pipeline assembles a textual
summary via regex-style substring extraction.

Text is modelled as `List Char` (JS strings), and the concrete regular
expressions of the source are modelled by dedicated scanning functions
with JS semantics: leftmost match, greedy with backtracking where the
pattern needs it, global matching as leftmost non-overlapping repetition.
File reads are modelled as `Except` values carried in the `RunOutcome`:
the source's `try`/`catch` blocks become `match`es on those values.
-/

namespace UnityMcp

/-- Convert a Lean string literal to the `List Char` text model. -/
def str (s : String) : List Char := s.data

/-- JS `String.prototype.startsWith` / regex literal matching at the head. -/
def startsW : List Char → List Char → Bool
  | [], _ => true
  | _ :: _, [] => false
  | p :: ps, c :: cs => p == c && startsW ps cs

/-- Leftmost-position search: try the matcher at every suffix, left to right,
returning the first success.  This is how a JS regex engine scans for the
leftmost match of a pattern. -/
def findFirstSuffix (f : List Char → Option α) : List Char → Option α
  | [] => f []
  | c :: t =>
    match f (c :: t) with
    | some a => some a
    | none => findFirstSuffix f t

/-- Rightmost-position search: the last suffix at which the matcher succeeds.
This models a greedy `[^>]+` that backtracks from the longest extent: the
continuation pattern ends up anchored at the *last* viable position. -/
def findLastSuffix (f : List Char → Option α) : List Char → Option α
  | [] => f []
  | c :: t =>
    match findLastSuffix f t with
    | some a => some a
    | none => f (c :: t)

/-- Global matching (`/.../g`): leftmost non-overlapping matches, continuing
after the end of each match; on failure the scan advances one position.
Fuel bounds the recursion; `length + 1` suffices for the nonempty-match
patterns used here. -/
def findAllAux (f : List Char → Option (α × List Char)) : Nat → List Char → List α
  | 0, _ => []
  | _ + 1, [] =>
    match f [] with
    | some (a, _) => [a]
    | none => []
  | n + 1, c :: t =>
    match f (c :: t) with
    | some (a, rest) => a :: findAllAux f n rest
    | none => findAllAux f n t

def findAll (f : List Char → Option (α × List Char)) (s : List Char) : List α :=
  findAllAux f (s.length + 1) s

/-- First occurrence of `pat`: returns the text before it and the text after
it.  Used for lazy (`*?`) closers such as `</failure>` and `]]></message>`. -/
def splitOnFirst (pat : List Char) : List Char → Option (List Char × List Char)
  | [] => if startsW pat [] then some ([], ([] : List Char).drop pat.length) else none
  | c :: t =>
    if startsW pat (c :: t) then some ([], (c :: t).drop pat.length)
    else
      match splitOnFirst pat t with
      | some (pre, post) => some (c :: pre, post)
      | none => none

/-- JS substring containment (`String.prototype.includes`). -/
def containsSubstr (pat : List Char) : List Char → Bool
  | [] => startsW pat []
  | c :: t => startsW pat (c :: t) || containsSubstr pat t

/-- The whitespace class of JS `String.prototype.trim` (ASCII fragment). -/
def isWS (c : Char) : Bool :=
  c == ' ' || c == '\t' || c == '\n' || c == '\r'

/-- JS `String.prototype.trim`. -/
def trim (s : List Char) : List Char :=
  ((s.dropWhile isWS).reverse.dropWhile isWS).reverse

/-- JS `text.split(/\r?\n/)`: both line-ending conventions, lone `\r` kept. -/
def splitLinesAux : List Char → List Char → List (List Char)
  | acc, [] => [acc.reverse]
  | acc, '\r' :: '\n' :: t => acc.reverse :: splitLinesAux [] t
  | acc, '\n' :: t => acc.reverse :: splitLinesAux [] t
  | acc, c :: t => splitLinesAux (c :: acc) t

def splitLines (s : List Char) : List (List Char) :=
  splitLinesAux [] s

/-- Maximal nonempty digit prefix (greedy `(\d+)`), with the rest. -/
def parseDigits (s : List Char) : Option (List Char × List Char) :=
  if (s.takeWhile Char.isDigit).isEmpty then none
  else some (s.takeWhile Char.isDigit, s.drop (s.takeWhile Char.isDigit).length)

/-! ## The concrete patterns of `runUnityTests` -/

/-- Pattern `/<test-run [^>]+>/` at one position: the literal, then a nonempty run of
non-`>` characters, then `>`. -/
def tryHeaderAt (s : List Char) : Option (List Char) :=
  if startsW (str "<test-run ") s then
    let rest := s.drop 10
    let run := rest.takeWhile (fun c => !(c == '>'))
    if !run.isEmpty && run.length < rest.length then
      some (str "<test-run " ++ run ++ ['>'])
    else none
  else none

/-- Pattern `total="(\d+)"` at one position: capture and the rest after the closing
quote.  Greedy `\d+` followed by the literal quote admits only the maximal
digit run. -/
def tryTotalAt (s : List Char) : Option (List Char × List Char) :=
  if startsW (str "total=\"") s then
    match parseDigits (s.drop 7) with
    | some (d, '"' :: r) => some (d, r)
    | _ => none
  else none

/-- Pattern `failed="(\d+)"` at one position. -/
def tryFailedAt (s : List Char) : Option (List Char) :=
  if startsW (str "failed=\"") s then
    match parseDigits (s.drop 8) with
    | some (d, '"' :: _) => some d
    | _ => none
  else none

/-- The continuation after the greedy first `[^>]+` of the totals pattern:
`total="(\d+)"` here, then `[^>]+failed="(\d+)"` anchored (greedily) after. -/
def totalsCand (t : List Char) : Option (List Char × List Char) :=
  match tryTotalAt t with
  | some (d, r) =>
    match findLastSuffix tryFailedAt (r.drop 1) with
    | some fd => some (d, fd)
    | none => none
  | none => none

/-- Pattern `/<test-run[^>]+total="(\d+)"[^>]+failed="(\d+)"/` at one position.
Neither `[^>]+` can cross a `>`, so the whole match lives before the next
`>`; greediness makes the engine bind the attribute patterns at the last
viable positions inside that window. -/
def tryTotalsAt (s : List Char) : Option (List Char × List Char) :=
  if startsW (str "<test-run") s then
    let window := (s.drop 9).takeWhile (fun c => !(c == '>'))
    findLastSuffix totalsCand (window.drop 1)
  else none

/-- First match of the totals pattern in the document. -/
def findTotals (xml : List Char) : Option (List Char × List Char) :=
  findFirstSuffix tryTotalsAt xml

/-- Pattern `/<test-case[^>]*result="Failed"[^>]*>/` at one position, with the rest
after the match (for global scanning). -/
def tryCaseAt (s : List Char) : Option (List Char × List Char) :=
  if startsW (str "<test-case") s then
    let rest := s.drop 10
    let window := rest.takeWhile (fun c => !(c == '>'))
    if containsSubstr (str "result=\"Failed\"") window && window.length < rest.length then
      some (str "<test-case" ++ window ++ ['>'], rest.drop (window.length + 1))
    else none
  else none

/-- Models `xml.match(/<test-case[^>]*result="Failed"[^>]*>/g) || []`. -/
def findFailedCases (xml : List Char) : List (List Char) :=
  findAll tryCaseAt xml

/-- Models `line.match(/name="([^"]*)"/)`: first occurrence of the substring
`name="`, capturing up to the next quote (which must exist). -/
def findName (tag : List Char) : Option (List Char) :=
  findFirstSuffix (fun t =>
    if startsW (str "name=\"") t then
      let r := t.drop 6
      let v := r.takeWhile (fun c => !(c == '"'))
      if v.length < r.length then some v else none
    else none) tag

/-- Pattern `/<failure>[\s\S]*?<\/failure>/` at one position: lazy up to the first
closing literal. -/
def tryFailureAt (s : List Char) : Option (List Char × List Char) :=
  if startsW (str "<failure>") s then
    match splitOnFirst (str "</failure>") (s.drop 9) with
    | some (pre, post) => some (str "<failure>" ++ pre ++ str "</failure>", post)
    | none => none
  else none

def findFailures (xml : List Char) : List (List Char) :=
  findAll tryFailureAt xml

/-- Models `f.match(/<message><!\[CDATA\[([\s\S]*?)\]\]><\/message>/)`, capture. -/
def msgOf (f : List Char) : Option (List Char) :=
  findFirstSuffix (fun t =>
    if startsW (str "<message><![CDATA[") t then
      match splitOnFirst (str "]]></message>") (t.drop 18) with
      | some (pre, _) => some pre
      | none => none
    else none) f

/-- Models `f.match(/<stack-trace><!\[CDATA\[([\s\S]*?)\]\]><\/stack-trace>/)`. -/
def stackOf (f : List Char) : Option (List Char) :=
  findFirstSuffix (fun t =>
    if startsW (str "<stack-trace><![CDATA[") t then
      match splitOnFirst (str "]]></stack-trace>") (t.drop 22) with
      | some (pre, _) => some pre
      | none => none
    else none) f

/-! ## The summarizer -/

/-- The outcome handed to the summarization code: exit code, captured
process output, the two best-effort file reads (contents or error text),
and the log path echoed in the footer. -/
structure RunOutcome where
  exitCode : Int
  stdout : List Char
  stderr : List Char
  resultsRead : Except (List Char) (List Char)
  logRead : Except (List Char) (List Char)
  logPath : List Char

def noticeStr : List Char := str "No results.xml found or failed to parse.\n"

def genericMsg : List Char := str "One or more child tests had errors"

/-- Stage 1: `xml.match(/<test-run [^>]+>/)`, echoed verbatim plus newline. -/
def headerSection (xml : List Char) : List Char :=
  match findFirstSuffix tryHeaderAt xml with
  | some h => h ++ ['\n']
  | none => []

/-- Stage 2: the `Total: N, Failed: M` line. -/
def totalsSection (xml : List Char) : List Char :=
  match findTotals xml with
  | some (t, f) => str "Total: " ++ t ++ str ", Failed: " ++ f ++ ['\n']
  | none => []

/-- One iteration of the failed-case loop: a dash line when the tag text
contains a `name="…"` capture, nothing otherwise. -/
def caseLine (tag : List Char) : List Char :=
  match findName tag with
  | some n => str "  - " ++ n ++ ['\n']
  | none => []

/-- Stage 3: header with the match count, then the per-case lines. -/
def casesSection (xml : List Char) : List Char :=
  let cs := findFailedCases xml
  if cs.length > 0 then
    str "Failed cases (" ++ str (toString cs.length) ++ str "):\n"
      ++ (cs.map caseLine).flatten
  else []

/-- Stage 4 loop body: first block whose trimmed message is nonempty and not
the generic parent-suite message; `break` after appending it. -/
def failureDetail : List (List Char) → List Char
  | [] => []
  | f :: rest =>
    match msgOf f with
    | some m =>
      if trim m ≠ [] ∧ trim m ≠ genericMsg then
        str "\nFailure message: " ++ trim m ++ str "\n"
          ++ (match stackOf f with
              | some st => str "Stack: " ++ trim st ++ str "\n"
              | none => [])
      else failureDetail rest
    | none => failureDetail rest

def failuresSection (xml : List Char) : List Char :=
  failureDetail (findFailures xml)

/-- The `try { … } catch { … }` block around the results read and the four
extraction stages: a failed read degrades to the fixed notice. -/
def resultsSection : Except (List Char) (List Char) → List Char
  | Except.error _ => noticeStr
  | Except.ok xml =>
      headerSection xml ++ totalsSection xml ++ casesSection xml ++ failuresSection xml

/-- Stage 5 footer: log path and exit code, always appended. -/
def footerSection (o : RunOutcome) : List Char :=
  str "\nLog: " ++ o.logPath ++ str "\nExit code: " ++ str (toString o.exitCode)

/-- Models `const tail = (text, max = 1000) => text.length > max ? text.slice(-max) : text`. -/
def tailStr (t : List Char) (max : Nat) : List Char :=
  if t.length > max then t.drop (t.length - max) else t

/-- Stage 6, stdout: appended under its label when non-blank. -/
def stdoutSection (o : RunOutcome) : List Char :=
  if trim o.stdout ≠ [] then str "\n\n[stdout tail]\n" ++ tailStr o.stdout 1000 else []

/-- Stage 6, stderr. -/
def stderrSection (o : RunOutcome) : List Char :=
  if trim o.stderr ≠ [] then str "\n\n[stderr tail]\n" ++ tailStr o.stderr 1000 else []

/-- Models `lines.filter((line) => line.toLowerCase().includes("error"))`. -/
def errLines (t : List Char) : List (List Char) :=
  (splitLines t).filter (fun l => containsSubstr (str "error") (l.map Char.toLower))

/-- Stage 7: the log grep, guarded by a nonzero exit code; the log read's
own `try`/`catch` folds a read failure into a labeled notice. -/
def grepSection (exitCode : Int) (logRead : Except (List Char) (List Char)) : List Char :=
  if exitCode ≠ 0 then
    match logRead with
    | Except.ok t =>
      let es := errLines t
      if es.length > 0 then
        let tailErrors := if es.length > 200 then es.drop (es.length - 200) else es
        str "\n\n[log grep -i 'error' (" ++ str (toString tailErrors.length)
          ++ str "/" ++ str (toString es.length) ++ str " matches)]\n"
          ++ List.intercalate (str "\n") tailErrors
      else str "\n\n[log grep -i 'error']\nNo 'error' lines found."
    | Except.error e => str "\n\n[log grep -i 'error']\nFailed to read log file: " ++ e
  else []

/-- The whole summary string assembled by `runUnityTests`. -/
def summarize (o : RunOutcome) : List Char :=
  resultsSection o.resultsRead ++ footerSection o ++ stdoutSection o
    ++ stderrSection o ++ grepSection o.exitCode o.logRead

/-- The value returned by `runUnityTests`: `{ summary, exitCode }`. -/
def runUnityTests (o : RunOutcome) : List Char × Int :=
  (summarize o, o.exitCode)

/-- Models `child.on("close", (code) => resolve(code ?? 0))`. -/
def resolveCloseCode : Option Int → Int
  | none => 0
  | some c => c

/-- The structured-message tool response built by `server.tool("run_unity_tests")`. -/
structure ToolResponse where
  text : List Char
  isError : Bool

def toolResponse (o : RunOutcome) : ToolResponse :=
  { text := (runUnityTests o).1, isError := decide ((runUnityTests o).2 ≠ 0) }

/-! ## Spec-side characterizations and concrete documents -/

/-- A failure block qualifies when its CDATA message exists and its trimmed
text is nonempty and not the generic parent-suite message (the selection
criterion stated by the spec). -/
def qualifies (f : List Char) : Bool :=
  match msgOf f with
  | some m => decide (trim m ≠ [] ∧ trim m ≠ genericMsg)
  | none => false

/-- The text contributed for one surfaced failure block. -/
def renderFailure (f : List Char) : List Char :=
  match msgOf f with
  | some m =>
    str "\nFailure message: " ++ trim m ++ str "\n"
      ++ (match stackOf f with
          | some st => str "Stack: " ++ trim st ++ str "\n"
          | none => [])
  | none => []

/-- The dash-prefixed case lines of stage 3, one per matched tag that
carries a `name="…"` capture. -/
def casesLines (xml : List Char) : List (List Char) :=
  (findFailedCases xml).filterMap
    (fun c => (findName c).map (fun n => str "  - " ++ n ++ ['\n']))

/-- Two failure blocks: generic first, meaningful second. -/
def c2xml : List Char :=
  str "<failure><message><![CDATA[One or more child tests had errors]]></message></failure><failure><message><![CDATA[Boom]]></message><stack-trace><![CDATA[ at X ]]></stack-trace></failure>"

/-- A matched failed test-case tag with no `name="…"` substring. -/
def c3xml : List Char := str "<test-case result=\"Failed\">"

/-- Two matched failed test-case tags, both named. -/
def c3w : List Char :=
  str "<test-case name=\"A\" result=\"Failed\"><test-case name=\"B\" result=\"Failed\">"

/-- A log whose 250 lines all match `error` case-insensitively. -/
def c4log : List Char := (List.replicate 250 (str "error\n")).flatten

/-- A run-header tag carrying both attributes, `failed` before `total`. -/
def c5xml : List Char := str "<test-run failed=\"2\" total=\"5\">"

/-- A run-header tag with `total` before `failed`, digit payloads abstract. -/
def c5doc (d1 d2 : List Char) : List Char :=
  str "<test-run total=\"" ++ d1 ++ str "\" failed=\"" ++ d2 ++ str "\">"

/-- An outcome whose results read failed, with a clean exit. -/
def c6o : RunOutcome :=
  ⟨0, [], [], Except.error (str "ENOENT"), Except.ok [], str "batch.log"⟩

/-- First failed tag: an attribute ending in `name` precedes the `name`
attribute; second failed tag: no `name="…"` substring at all. -/
def c10xml : List Char :=
  str "<test-case fullname=\"Suite.TestA\" name=\"TestA\" result=\"Failed\"><test-case result=\"Failed\">"

/-! ## Helper lemmas -/

theorem startsW_self_append (p r : List Char) : startsW p (p ++ r) = true := by
  induction p with
  | nil => rfl
  | cons c t ih => simp [startsW, ih]

theorem findLastSuffix_cons_step (f : List Char → Option α) (c : Char) (t : List Char)
    (h : f (c :: t) = none) : findLastSuffix f (c :: t) = findLastSuffix f t := by
  show (match findLastSuffix f t with
        | some a => some a
        | none => f (c :: t)) = findLastSuffix f t
  cases hft : findLastSuffix f t <;> simp [h]

theorem findLastSuffix_skip (f : List Char → Option α) (l r : List Char)
    (h : ∀ c ∈ l, ∀ t, f (c :: t) = none) :
    findLastSuffix f (l ++ r) = findLastSuffix f r := by
  induction l with
  | nil => rfl
  | cons c l' ih =>
    rw [List.cons_append,
      findLastSuffix_cons_step f c (l' ++ r) (h c (List.mem_cons_self c l') _),
      ih (fun c hc t => h c (List.mem_cons_of_mem _ hc) t)]

theorem findLastSuffix_head (f : List Char → Option α) (c : Char) (t : List Char)
    (h : findLastSuffix f t = none) : findLastSuffix f (c :: t) = f (c :: t) := by
  show (match findLastSuffix f t with
        | some a => some a
        | none => f (c :: t)) = f (c :: t)
  rw [h]

theorem takeWhile_append_all (p : Char → Bool) (l r : List Char)
    (h : ∀ c ∈ l, p c = true) :
    (l ++ r).takeWhile p = l ++ r.takeWhile p := by
  induction l with
  | nil => rfl
  | cons c l' ih =>
    have hc := h c (List.mem_cons_self c l')
    simp [List.takeWhile_cons, hc, ih (fun c hc2 => h c (List.mem_cons_of_mem _ hc2))]

theorem length_filterMap_of_isSome {α β : Type} (f : α → Option β) (l : List α)
    (h : ∀ x ∈ l, (f x).isSome) : (l.filterMap f).length = l.length := by
  induction l with
  | nil => rfl
  | cons x l' ih =>
    have hx := h x (List.mem_cons_self x l')
    cases hfx : f x with
    | none => rw [hfx] at hx; simp at hx
    | some b =>
      simp [List.filterMap_cons, hfx, ih (fun x hx => h x (List.mem_cons_of_mem _ hx))]

theorem ne_nil_of_left (a b : List Char) (h : a ≠ []) : a ++ b ≠ [] :=
  fun hc => h (List.append_eq_nil.mp hc).1

theorem failureDetail_eq_find (l : List (List Char)) :
    failureDetail l =
      match l.find? qualifies with
      | some f => renderFailure f
      | none => [] := by
  induction l with
  | nil => rfl
  | cons f rest ih =>
    cases hm : msgOf f with
    | none =>
      have hq : qualifies f = false := by simp [qualifies, hm]
      simp only [failureDetail, hm, List.find?, hq, ih]
    | some m =>
      by_cases hc : trim m ≠ [] ∧ trim m ≠ genericMsg
      · have hq : qualifies f = true := by simp [qualifies, hm, hc]
        simp only [failureDetail, hm, if_pos hc, List.find?, hq, renderFailure]
      · have hq : qualifies f = false := by
          simp only [qualifies, hm, decide_eq_false_iff_not]
          exact hc
        simp only [failureDetail, hm, if_neg hc, List.find?, hq, ih]

theorem flatten_map_caseLine (cs : List (List Char)) :
    (cs.map caseLine).flatten =
      (cs.filterMap (fun c => (findName c).map (fun n => str "  - " ++ n ++ ['\n']))).flatten := by
  induction cs with
  | nil => rfl
  | cons c rest ih =>
    cases h : findName c <;>
      simp [caseLine, h, List.filterMap_cons, ih]

/-! ## Claims -/

/-- C1: for every `RunOutcome` — any exit code, stdout/stderr, and any
results/log read outcomes including failures — the summarization returns
normally with a summary string paired with the numeric exit code; a failed
results read degrades to the fixed notice inside the summary, and a failed
log read degrades to a labeled notice carrying the error text, never a
propagated error. -/
theorem c1_summarizer_never_fails :
    ∀ o : RunOutcome,
      runUnityTests o =
        (resultsSection o.resultsRead ++ footerSection o ++ stdoutSection o
          ++ stderrSection o ++ grepSection o.exitCode o.logRead, o.exitCode)
      ∧ (∀ e, resultsSection (Except.error e) = noticeStr)
      ∧ (∀ e, grepSection 1 (Except.error e) =
          str "\n\n[log grep -i 'error']\nFailed to read log file: " ++ e) := by
  intro o
  refine ⟨rfl, fun e => rfl, fun e => ?_⟩
  simp [grepSection]

set_option maxRecDepth 4000 in
/-- C2: the failure-detail stage renders exactly the first failure block (in
document order) whose trimmed CDATA message is nonempty and differs from
"One or more child tests had errors", then stops — at most one detail is
ever surfaced; in particular, for a document whose first block is generic
and second is meaningful, only the second's message (with its stack trace)
appears. -/
theorem c2_first_meaningful_failure_only :
    (∀ xml : List Char,
      failuresSection xml =
        match (findFailures xml).find? qualifies with
        | some f => renderFailure f
        | none => [])
    ∧ failuresSection c2xml = str "\nFailure message: Boom\nStack: at X\n" := by
  refine ⟨fun xml => failureDetail_eq_find (findFailures xml), ?_⟩
  decide

/-- C3 counterexample: a results document with exactly one matched failed
test-case tag (so N = 1) whose tag text has no `name="…"` substring: the
header counts 1 but zero dash-prefixed case names are listed, refuting
"the summary lists exactly N case names, each prefixed with a dash". -/
theorem c3_counterexample :
    (findFailedCases c3xml).length = 1
    ∧ casesLines c3xml = []
    ∧ casesSection c3xml = str "Failed cases (1):\n" := by
  decide

/-- C3 (amended): for every results document, when no test-case tag matches
no "Failed cases" header appears; when some match, the section is the
header (counting all matched tags) followed by one dash-prefixed name line
per matched tag that carries a `name="…"` capture, in document order —
so exactly N lines whenever every matched tag carries one. -/
theorem c3_failed_cases_lines :
    ∀ xml : List Char,
      (findFailedCases xml = [] → casesSection xml = [])
      ∧ (findFailedCases xml ≠ [] →
          casesSection xml =
            str "Failed cases (" ++ str (toString (findFailedCases xml).length)
              ++ str "):\n" ++ (casesLines xml).flatten)
      ∧ ((∀ c ∈ findFailedCases xml, (findName c).isSome) →
          (casesLines xml).length = (findFailedCases xml).length) := by
  intro xml
  refine ⟨fun h => ?_, fun h => ?_, fun h => ?_⟩
  · simp [casesSection, h]
  · have hpos : (findFailedCases xml).length > 0 := List.length_pos.mpr h
    simp only [casesSection, if_pos hpos, casesLines, flatten_map_caseLine]
  · exact length_filterMap_of_isSome _ _ (fun x hx => by simpa using h x hx)

/-- C3 witness: the amended statement evaluated at an empty document and at
a two-case document where both matched tags are named. -/
theorem c3_failed_cases_lines_witness :
    casesSection [] = []
    ∧ casesSection c3w =
        str "Failed cases (" ++ str (toString (findFailedCases c3w).length)
          ++ str "):\n" ++ (casesLines c3w).flatten
    ∧ (casesLines c3w).length = (findFailedCases c3w).length :=
  ⟨(c3_failed_cases_lines []).1 (by decide),
   (c3_failed_cases_lines c3w).2.1 (by decide),
   (c3_failed_cases_lines c3w).2.2 (by decide)⟩

/-- C6: when the results document cannot be read, the summary opens with the
fixed notice and the extraction stages contribute nothing else — the rest
of the summary is only the footer, the output tails, and the log grep; the
notice itself contains no "Total: " line, no failed-case header, and no
failure-message label; with exit code 0 the grep section is absent too. -/
theorem c6_missing_results_skips_stages :
    ∀ (o : RunOutcome) (e : List Char), o.resultsRead = Except.error e →
      summarize o =
        noticeStr ++ footerSection o ++ stdoutSection o ++ stderrSection o
          ++ grepSection o.exitCode o.logRead
      ∧ containsSubstr (str "Total: ") noticeStr = false
      ∧ containsSubstr (str "Failed cases (") noticeStr = false
      ∧ containsSubstr (str "\nFailure message: ") noticeStr = false
      ∧ (o.exitCode = 0 →
          summarize o =
            noticeStr ++ footerSection o ++ stdoutSection o ++ stderrSection o) := by
  intro o e h
  refine ⟨?_, by decide, by decide, by decide, fun h0 => ?_⟩
  · simp [summarize, h, resultsSection]
  · simp [summarize, h, resultsSection, grepSection, h0]

/-- C6 witness: a clean-exit outcome whose results read failed. -/
theorem c6_missing_results_witness :
    summarize c6o =
      noticeStr ++ footerSection c6o ++ stdoutSection c6o ++ stderrSection c6o
        ++ grepSection c6o.exitCode c6o.logRead
    ∧ containsSubstr (str "Total: ") noticeStr = false
    ∧ containsSubstr (str "Failed cases (") noticeStr = false
    ∧ containsSubstr (str "\nFailure message: ") noticeStr = false
    ∧ (c6o.exitCode = 0 →
        summarize c6o =
          noticeStr ++ footerSection c6o ++ stdoutSection c6o ++ stderrSection c6o) := by
  have h := c6_missing_results_skips_stages c6o (str "ENOENT") rfl
  exact ⟨h.1, h.2.1, h.2.2.1, h.2.2.2.1, fun _ => h.2.2.2.2 rfl⟩

/-- C7: a blank (all-whitespace) captured stdout/stderr produces no section;
a non-blank one is appended under its label truncated to the last 1000
characters — `tailStr … 1000` is the `length − 1000` drop, of length
`min 1000 length`, so exactly the last 1000 characters when longer. -/
theorem c7_output_tails :
    (∀ o : RunOutcome,
      stdoutSection o =
        (if trim o.stdout = [] then []
         else str "\n\n[stdout tail]\n" ++ tailStr o.stdout 1000)
      ∧ stderrSection o =
        (if trim o.stderr = [] then []
         else str "\n\n[stderr tail]\n" ++ tailStr o.stderr 1000))
    ∧ (∀ t : List Char,
        tailStr t 1000 = t.drop (t.length - 1000)
        ∧ (tailStr t 1000).length = min 1000 t.length) := by
  constructor
  · intro o
    constructor
    · by_cases h : trim o.stdout = [] <;> simp [stdoutSection, h]
    · by_cases h : trim o.stderr = [] <;> simp [stderrSection, h]
  · intro t
    by_cases h : t.length > 1000
    · refine ⟨by simp [tailStr, h], ?_⟩
      simp only [tailStr, if_pos h, List.length_drop]
      omega
    · have h0 : t.length - 1000 = 0 := by omega
      refine ⟨by simp [tailStr, h, h0], ?_⟩
      simp only [tailStr, if_neg h]
      omega

/-- C8: summarization is deterministic — identical `RunOutcome` inputs (and
hence identical file-read contents) yield byte-identical summaries. -/
theorem c8_deterministic :
    ∀ o₁ o₂ : RunOutcome, o₁ = o₂ → runUnityTests o₁ = runUnityTests o₂ := by
  intro o₁ o₂ h
  rw [h]

/-- C8 witness: the determinism theorem applied at a concrete outcome. -/
theorem c8_deterministic_witness :
    runUnityTests ⟨2, str "out", str "err", Except.ok (str "<x/>"), Except.ok (str "Error"), str "p"⟩
      = runUnityTests ⟨2, str "out", str "err", Except.ok (str "<x/>"), Except.ok (str "Error"), str "p"⟩ :=
  c8_deterministic _ _ rfl

/-- C9: a `null` close code resolves to exit code 0, so the log-grep stage
is skipped and the tool response's `isError` flag is `false`, exactly as
for a successful run. -/
theorem c9_null_close_code_is_success :
    resolveCloseCode none = 0
    ∧ (∀ lr, grepSection (resolveCloseCode none) lr = [])
    ∧ (∀ (so se lp : List Char) (rr lr : Except (List Char) (List Char)),
        (toolResponse ⟨resolveCloseCode none, so, se, rr, lr, lp⟩).isError = false) := by
  refine ⟨rfl, fun lr => ?_, fun so se lp rr lr => ?_⟩
  · simp [grepSection, resolveCloseCode]
  · simp [toolResponse, runUnityTests, resolveCloseCode]

/-- C10: the dash-listed name is the capture of the first `name="…"`
substring in the raw tag text: with `fullname="Suite.TestA"` appearing
before `name="TestA"`, the listed value is `Suite.TestA`; and a matched tag
with no such substring contributes no dash line while still being counted
in the "Failed cases (N)" header. -/
theorem c10_first_name_substring_wins :
    findFailedCases c10xml =
      [str "<test-case fullname=\"Suite.TestA\" name=\"TestA\" result=\"Failed\">",
       str "<test-case result=\"Failed\">"]
    ∧ findName (str "<test-case fullname=\"Suite.TestA\" name=\"TestA\" result=\"Failed\">")
        = some (str "Suite.TestA")
    ∧ findName (str "<test-case result=\"Failed\">") = none
    ∧ casesSection c10xml = str "Failed cases (2):\n  - Suite.TestA\n" := by
  decide

/-- C4: the log-grep section appears iff the exit code is nonzero — it is
empty for exit code 0 regardless of log content and nonempty otherwise;
and for a nonzero exit code with a readable log whose case-insensitive
`error` lines number 250, the section header reports "200/250 matches" and
lists exactly the last 200 such lines in original relative order. -/
theorem c4_log_grep_iff_nonzero_exit :
    (∀ lr, grepSection 0 lr = [])
    ∧ (∀ (c : Int) (lr), c ≠ 0 → grepSection c lr ≠ [])
    ∧ (∀ (c : Int) (t : List Char), c ≠ 0 → (errLines t).length = 250 →
        grepSection c (Except.ok t) =
          str "\n\n[log grep -i 'error' (200/250 matches)]\n"
            ++ List.intercalate (str "\n") ((errLines t).drop 50)) := by
  refine ⟨fun lr => by simp [grepSection], fun c lr h => ?_, fun c t h h250 => ?_⟩
  · unfold grepSection
    rw [if_pos h]
    cases lr with
    | error e =>
      exact ne_nil_of_left _ _ (by decide)
    | ok t =>
      by_cases hp : (errLines t).length > 0
      · simp only [if_pos hp]
        exact ne_nil_of_left _ _ (ne_nil_of_left _ _ (ne_nil_of_left _ _
          (ne_nil_of_left _ _ (ne_nil_of_left _ _ (by decide)))))
      · simp only [if_neg hp]
        decide
  · unfold grepSection
    rw [if_pos h]
    norm_num [h250, List.length_drop]
    simp only [← List.append_assoc]
    congr 1

set_option maxRecDepth 100000 in
/-- C4 witness: exit code 1 with a 250-line log, every line matching. -/
theorem c4_log_grep_witness :
    (1 : Int) ≠ 0
    ∧ (errLines c4log).length = 250
    ∧ grepSection 1 (Except.ok c4log) =
        str "\n\n[log grep -i 'error' (200/250 matches)]\n"
          ++ List.intercalate (str "\n") ((errLines c4log).drop 50) :=
  ⟨by decide, by decide, c4_log_grep_iff_nonzero_exit.2.2 1 c4log (by decide) (by decide)⟩

/-! ## Lemmas about the totals matcher (for C5) -/

theorem findFirstSuffix_prefix_hit (f : List Char → Option α) (p r : List Char) (a : α)
    (hp : p ≠ []) (h : f (p ++ r) = some a) : findFirstSuffix f (p ++ r) = some a := by
  cases p with
  | nil => exact absurd rfl hp
  | cons c t =>
    rw [List.cons_append] at h ⊢
    show (match f (c :: (t ++ r)) with
          | some a => some a
          | none => findFirstSuffix f (t ++ r)) = some a
    rw [h]

theorem findLastSuffix_head_append (f : List Char → Option α) (c : Char) (p r : List Char)
    (a : α) (hnone : findLastSuffix f (p ++ r) = none)
    (hhit : f ((c :: p) ++ r) = some a) : findLastSuffix f ((c :: p) ++ r) = some a := by
  rw [List.cons_append]
  rw [findLastSuffix_head _ _ _ hnone]
  exact hhit

theorem beq_left_false_of_digit (a : Char) (ha : a.isDigit = false) (c : Char)
    (hc : c.isDigit = true) : (a == c) = false := by
  cases hb : a == c
  · rfl
  · have hac : a = c := eq_of_beq hb
    rw [hac, hc] at ha
    exact absurd ha (by simp)

theorem beq_right_false_of_digit (c : Char) (hc : c.isDigit = true) (a : Char)
    (ha : a.isDigit = false) : (c == a) = false := by
  cases hb : c == a
  · rfl
  · have hca : c = a := eq_of_beq hb
    rw [← hca, hc] at ha
    exact absurd ha (by simp)

theorem digit_keep_gt (c : Char) (hc : c.isDigit = true) : (!(c == '>')) = true := by
  rw [beq_right_false_of_digit c hc '>' (by decide)]
  rfl

theorem takeWhile_cons_pos (p : Char → Bool) (c : Char) (l : List Char) (h : p c = true) :
    (c :: l).takeWhile p = c :: l.takeWhile p := by
  simp [List.takeWhile_cons, h]

theorem parseDigits_append_quote (d r : List Char) (hd : ∀ c ∈ d, c.isDigit = true)
    (hne : d ≠ []) : parseDigits (d ++ ('"' :: r)) = some (d, '"' :: r) := by
  have ht : (d ++ ('"' :: r)).takeWhile Char.isDigit = d := by
    rw [takeWhile_append_all Char.isDigit d _ hd]
    simp [List.takeWhile_cons]
  have he : d.isEmpty = false := by
    cases d with
    | nil => exact absurd rfl hne
    | cons _ _ => rfl
  unfold parseDigits
  rw [ht, he]
  simp [List.drop_left]

theorem tryTotalAt_hit (d r : List Char) (hd : ∀ c ∈ d, c.isDigit = true) (hne : d ≠ []) :
    tryTotalAt (str "total=\"" ++ (d ++ ('"' :: r))) = some (d, r) := by
  unfold tryTotalAt
  rw [startsW_self_append, if_pos rfl]
  rw [show (7 : Nat) = (str "total=\"").length from rfl, List.drop_left]
  rw [parseDigits_append_quote d r hd hne]
  rfl

theorem tryFailedAt_hit (d r : List Char) (hd : ∀ c ∈ d, c.isDigit = true) (hne : d ≠ []) :
    tryFailedAt (str "failed=\"" ++ (d ++ ('"' :: r))) = some d := by
  unfold tryFailedAt
  rw [startsW_self_append, if_pos rfl]
  rw [show (8 : Nat) = (str "failed=\"").length from rfl, List.drop_left]
  rw [parseDigits_append_quote d r hd hne]
  rfl

theorem tryTotalAt_none_head (c : Char) (t : List Char) (h : ('t' == c) = false) :
    tryTotalAt (c :: t) = none := by
  unfold tryTotalAt
  rw [show str "total=\"" = 't' :: str "otal=\"" from by decide]
  simp [startsW, h]

theorem tryFailedAt_none_head (c : Char) (t : List Char) (h : ('f' == c) = false) :
    tryFailedAt (c :: t) = none := by
  unfold tryFailedAt
  rw [show str "failed=\"" = 'f' :: str "ailed=\"" from by decide]
  simp [startsW, h]

theorem totalsCand_none_head (c : Char) (t : List Char) (h : ('t' == c) = false) :
    totalsCand (c :: t) = none := by
  simp [totalsCand, tryTotalAt_none_head c t h]

theorem totalsCand_none_ta (t : List Char) : totalsCand ('t' :: 'a' :: t) = none := by
  have hta : tryTotalAt ('t' :: 'a' :: t) = none := by
    unfold tryTotalAt
    rw [show str "total=\"" = 't' :: 'o' :: str "tal=\"" from by decide]
    simp [startsW]
  simp [totalsCand, hta]

theorem fls_failed_hit (d : List Char) (hd : ∀ c ∈ d, c.isDigit = true) (hne : d ≠ []) :
    findLastSuffix tryFailedAt (str "failed=\"" ++ (d ++ ('"' :: []))) = some d := by
  have htail : findLastSuffix tryFailedAt (str "ailed=\"" ++ (d ++ ('"' :: []))) = none := by
    rw [findLastSuffix_skip tryFailedAt (str "ailed=\"") _
      (fun c hc t => tryFailedAt_none_head c t
        ((by decide : ∀ c ∈ str "ailed=\"", ('f' == c) = false) c hc))]
    rw [findLastSuffix_skip tryFailedAt d _
      (fun c hc t => tryFailedAt_none_head c t
        (beq_left_false_of_digit 'f' (by decide) c (hd c hc)))]
    decide
  rw [show str "failed=\"" = 'f' :: str "ailed=\"" from by decide]
  exact findLastSuffix_head_append _ 'f' _ _ _ htail (tryFailedAt_hit d [] hd hne)

theorem totalsCand_hit (d1 d2 : List Char)
    (hd1 : ∀ c ∈ d1, c.isDigit = true) (hne1 : d1 ≠ [])
    (hd2 : ∀ c ∈ d2, c.isDigit = true) (hne2 : d2 ≠ []) :
    totalsCand (str "total=\"" ++
        (d1 ++ ('"' :: (' ' :: (str "failed=\"" ++ (d2 ++ ('"' :: []))))))) =
      some (d1, d2) := by
  unfold totalsCand
  rw [tryTotalAt_hit d1 _ hd1 hne1]
  simp [fls_failed_hit d2 hd2 hne2]

theorem fls_totalsCand_tail_none (d1 d2 : List Char)
    (hd1 : ∀ c ∈ d1, c.isDigit = true) (hd2 : ∀ c ∈ d2, c.isDigit = true) :
    findLastSuffix totalsCand
      (str "otal=\"" ++ (d1 ++ ('"' :: (' ' :: (str "failed=\"" ++ (d2 ++ ('"' :: []))))))) =
      none := by
  rw [show str "otal=\"" = 'o' :: 't' :: 'a' :: 'l' :: '=' :: '"' :: ([] : List Char) from by decide]
  simp only [List.cons_append, List.nil_append]
  rw [findLastSuffix_cons_step _ _ _ (totalsCand_none_head 'o' _ (by decide))]
  rw [findLastSuffix_cons_step _ _ _ (totalsCand_none_ta _)]
  rw [findLastSuffix_cons_step _ _ _ (totalsCand_none_head 'a' _ (by decide))]
  rw [findLastSuffix_cons_step _ _ _ (totalsCand_none_head 'l' _ (by decide))]
  rw [findLastSuffix_cons_step _ _ _ (totalsCand_none_head '=' _ (by decide))]
  rw [findLastSuffix_cons_step _ _ _ (totalsCand_none_head '"' _ (by decide))]
  rw [findLastSuffix_skip totalsCand d1 _
    (fun c hc t => totalsCand_none_head c t
      (beq_left_false_of_digit 't' (by decide) c (hd1 c hc)))]
  rw [findLastSuffix_cons_step _ _ _ (totalsCand_none_head '"' _ (by decide))]
  rw [findLastSuffix_cons_step _ _ _ (totalsCand_none_head ' ' _ (by decide))]
  rw [findLastSuffix_skip totalsCand (str "failed=\"") _
    (fun c hc t => totalsCand_none_head c t
      ((by decide : ∀ c ∈ str "failed=\"", ('t' == c) = false) c hc))]
  rw [findLastSuffix_skip totalsCand d2 _
    (fun c hc t => totalsCand_none_head c t
      (beq_left_false_of_digit 't' (by decide) c (hd2 c hc)))]
  decide

theorem tryTotalsAt_c5doc (d1 d2 : List Char)
    (hd1 : ∀ c ∈ d1, c.isDigit = true) (hne1 : d1 ≠ [])
    (hd2 : ∀ c ∈ d2, c.isDigit = true) (hne2 : d2 ≠ []) :
    tryTotalsAt (str "<test-run" ++
        (' ' :: (str "total=\"" ++
          (d1 ++ ('"' :: (' ' :: (str "failed=\"" ++ (d2 ++ ('"' :: ('>' :: [])))))))))) =
      some (d1, d2) := by
  unfold tryTotalsAt
  rw [startsW_self_append, if_pos rfl]
  change findLastSuffix totalsCand _ = _
  rw [show (9 : Nat) = (str "<test-run").length from rfl, List.drop_left]
  rw [takeWhile_cons_pos _ ' ' _ (by decide)]
  rw [takeWhile_append_all _ (str "total=\"") _ (by decide)]
  rw [takeWhile_append_all _ d1 _ (fun c hc => digit_keep_gt c (hd1 c hc))]
  rw [takeWhile_cons_pos _ '"' _ (by decide)]
  rw [takeWhile_cons_pos _ ' ' _ (by decide)]
  rw [takeWhile_append_all _ (str "failed=\"") _ (by decide)]
  rw [takeWhile_append_all _ d2 _ (fun c hc => digit_keep_gt c (hd2 c hc))]
  rw [show ('"' :: ('>' :: ([] : List Char))).takeWhile (fun c => !(c == '>'))
        = '"' :: ([] : List Char) from by decide]
  simp only [List.drop_succ_cons, List.drop_zero]
  rw [show str "total=\"" = 't' :: str "otal=\"" from by decide]
  exact findLastSuffix_head_append _ 't' _ _ _
    (fls_totalsCand_tail_none d1 d2 hd1 hd2)
    (totalsCand_hit d1 d2 hd1 hne1 hd2 hne2)

/-- C5 counterexample: a run-header tag carrying both numeric attributes but
with `failed` before `total` yields no totals match and no "Total:" line in
the summary — the extraction does not tolerate this attribute order, since
the pattern requires `total` to precede `failed`. -/
theorem c5_counterexample :
    containsSubstr (str "total=\"5\"") c5xml = true
    ∧ containsSubstr (str "failed=\"2\"") c5xml = true
    ∧ findTotals c5xml = none
    ∧ totalsSection c5xml = []
    ∧ containsSubstr (str "Total:") (resultsSection (Except.ok c5xml)) = false := by
  decide

/-- C5 (amended): for a run-header tag in which the `total` attribute
appears before the `failed` attribute, the summary contains the
"Total: N, Failed: M" line built from the captured digit substrings —
shown for every pair of nonempty digit payloads; the claim's
"regardless of attribute order" does not hold (see the counterexample),
only the total-before-failed order is matched. -/
theorem c5_totals_total_before_failed (d1 d2 : List Char)
    (hne1 : d1 ≠ []) (hne2 : d2 ≠ [])
    (hd1 : ∀ c ∈ d1, c.isDigit = true) (hd2 : ∀ c ∈ d2, c.isDigit = true) :
    findTotals (c5doc d1 d2) = some (d1, d2)
    ∧ totalsSection (c5doc d1 d2) =
        str "Total: " ++ d1 ++ str ", Failed: " ++ d2 ++ ['\n'] := by
  have hdoc : c5doc d1 d2 =
      str "<test-run" ++
        (' ' :: (str "total=\"" ++
          (d1 ++ ('"' :: (' ' :: (str "failed=\"" ++ (d2 ++ ('"' :: ('>' :: []))))))))) := by
    unfold c5doc
    rw [show str "<test-run total=\"" =
          '<' :: 't' :: 'e' :: 's' :: 't' :: '-' :: 'r' :: 'u' :: 'n' :: ' '
            :: 't' :: 'o' :: 't' :: 'a' :: 'l' :: '=' :: '"' :: ([] : List Char) from by decide,
        show str "\" failed=\"" =
          '"' :: ' ' :: 'f' :: 'a' :: 'i' :: 'l' :: 'e' :: 'd' :: '=' :: '"'
            :: ([] : List Char) from by decide,
        show str "\">" = '"' :: '>' :: ([] : List Char) from by decide,
        show str "<test-run" =
          '<' :: 't' :: 'e' :: 's' :: 't' :: '-' :: 'r' :: 'u' :: 'n'
            :: ([] : List Char) from by decide,
        show str "total=\"" =
          't' :: 'o' :: 't' :: 'a' :: 'l' :: '=' :: '"' :: ([] : List Char) from by decide,
        show str "failed=\"" =
          'f' :: 'a' :: 'i' :: 'l' :: 'e' :: 'd' :: '=' :: '"' :: ([] : List Char) from by decide]
    simp [List.cons_append, List.append_assoc]
  have hmain : findTotals (c5doc d1 d2) = some (d1, d2) := by
    rw [hdoc]
    unfold findTotals
    exact findFirstSuffix_prefix_hit tryTotalsAt (str "<test-run") _ _ (by decide)
      (tryTotalsAt_c5doc d1 d2 hd1 hne1 hd2 hne2)
  exact ⟨hmain, by simp [totalsSection, hmain]⟩

/-- C5 witness: the amended statement at `total="5" failed="2"`. -/
theorem c5_totals_witness :
    findTotals (c5doc (str "5") (str "2")) = some (str "5", str "2")
    ∧ totalsSection (c5doc (str "5") (str "2")) =
        str "Total: " ++ str "5" ++ str ", Failed: " ++ str "2" ++ ['\n'] :=
  c5_totals_total_before_failed (str "5") (str "2")
    (by decide) (by decide) (by decide) (by decide)

end UnityMcp
